import Mathlib

/-!
Verification of the MPR reporting application (Flask + SQLAlchemy + SQLite).

The embedding models the pieces of `src/mpr/routes.py` (the `records` view:
filtering, month ordering, the latest-period computation, the window-function
deduplication behind the missing-report detector, and the summary
aggregations) and of `src/main.py` (`remove_filter`, `load_data_command`,
`migrate_data_command`).

Conventions:
* A joined fact row (`MprReport` outer-joined to `states`, `rusa_phases`,
  `components`) is a `Report`; nullable SQL columns are `Option` fields, and
  the joined reference names (`State.name`, ...) are `Option String` (`none`
  when the foreign key is null, since the reference `name` columns are
  `NOT NULL`).
* SQL three-valued logic is `Option Bool` with `none` for `NULL`; a SQL
  `WHERE` keeps a row only when the predicate evaluates to `some true`.
* SQLite sorts `NULL` before every value, so `ORDER BY year DESC` puts
  null-year rows last; the sort key `skey` encodes this with a 0/1 flag.
-/

namespace Mpr

/-- A row of the listing query: one `mpr_report` row outer-joined to the three
reference tables.  Only the columns used by `records` are kept. -/
structure Report where
  id : Nat
  stateName : Option String
  phaseName : Option String
  componentName : Option String
  institution_name : Option String
  district : Option String
  project_status : Option String
  year : Option Int
  months : Option String
  whether_pm_digitally_launched_project_yes_no_ : Option String
deriving DecidableEq, Repr

/-- The request filters (`routes.py` lines 21-30); each field is the list of
selected values (`request.args.getlist`).  `year` holds the values after the
`int(y)` conversion of line 49. -/
structure Filters where
  state : List String
  rusa_phase : List String
  component_name : List String
  institution_name : List String
  district : List String
  project_status : List String
  year : List Int
  months : List String
deriving DecidableEq, Repr

/-- No filter selected (every `getlist` empty). -/
def noFilters : Filters := ⟨[], [], [], [], [], [], [], []⟩

/-- The branches of the `month_order` CASE expression (`routes.py` line 54). -/
def monthCase : List (String × Nat) :=
  [("December", 12), ("November", 11), ("October", 10), ("September", 9),
   ("August", 8), ("July", 7), ("June", 6), ("May", 5), ("April", 4),
   ("March", 3), ("February", 2), ("January", 1)]

/-- The `month_order` CASE expression (`routes.py` lines 53-56): the twelve
English month names map to 1..12, anything else (a `NULL` month included,
since `CASE x WHEN v` never matches `NULL`) falls to `else_=0`. -/
def month_order : Option String → Nat
  | none => 0
  | some s => ((monthCase.find? (fun p => p.1 == s)).map Prod.snd).getD 0

/-- The twelve recognized month names. -/
def monthNames : List String :=
  ["January", "February", "March", "April", "May", "June", "July", "August",
   "September", "October", "November", "December"]

/-- SQLite `ORDER BY year DESC`: `NULL` sorts after every integer, encoded by
the 0/1 flag. -/
def yearFlag : Option Int → Nat
  | none => 0
  | some _ => 1

def yearVal : Option Int → Int
  | none => 0
  | some z => z

/-- The recency sort key of a row, for `ORDER BY year DESC, month_order DESC`:
rows compare lexicographically, and the row sorted first is the one with the
largest key. -/
def skey (r : Report) : Nat × Int × Nat :=
  (yearFlag r.year, yearVal r.year, month_order r.months)

/-- Strict lexicographic comparison of recency keys. -/
def keyLt (a b : Nat × Int × Nat) : Bool :=
  decide (a.1 < b.1) ||
    (decide (a.1 = b.1) &&
      (decide (a.2.1 < b.2.1) ||
        (decide (a.2.1 = b.2.1) && decide (a.2.2 < b.2.2))))

def keyLe (a b : Nat × Int × Nat) : Bool :=
  keyLt a b || decide (a = b)

/-- `ORDER BY year DESC, month_order DESC ... .first()`: the first row of the
descending sort, i.e. a row whose recency key is maximal (the first such row
in table order when several tie). -/
def pickLatest (rows : List Report) : Option Report :=
  rows.foldl
    (fun acc r =>
      match acc with
      | none => some r
      | some m => if keyLt (skey m) (skey r) then some r else some m)
    none

/-- Membership of a nullable column in an `IN (...)` list: `NULL IN (...)` is
never true. -/
def optMemS (v : Option String) (sel : List String) : Bool :=
  match v with
  | none => false
  | some x => decide (x ∈ sel)

def optMemI (v : Option Int) (sel : List Int) : Bool :=
  match v with
  | none => false
  | some x => decide (x ∈ sel)

/-- The filter pipeline of `routes.py` lines 36-51: each field with a
non-empty selection adds a conjunct restricting the query. -/
def applyFilters (f : Filters) (db : List Report) : List Report :=
  let q := db
  let q := if f.state.isEmpty then q else q.filter (fun r => optMemS r.stateName f.state)
  let q := if f.rusa_phase.isEmpty then q else q.filter (fun r => optMemS r.phaseName f.rusa_phase)
  let q := if f.component_name.isEmpty then q else q.filter (fun r => optMemS r.componentName f.component_name)
  let q := if f.institution_name.isEmpty then q else q.filter (fun r => optMemS r.institution_name f.institution_name)
  let q := if f.district.isEmpty then q else q.filter (fun r => optMemS r.district f.district)
  let q := if f.project_status.isEmpty then q else q.filter (fun r => optMemS r.project_status f.project_status)
  let q := if f.year.isEmpty then q else q.filter (fun r => optMemI r.year f.year)
  let q := if f.months.isEmpty then q else q.filter (fun r => optMemS r.months f.months)
  q

/-- The window-partition key of the missing-report subquery
(`routes.py` lines 114-117): `(State.name, RusaPhase.name, Component.name,
institution_name, district)`.  SQL window partitioning groups `NULL` keys
together, hence plain equality of the `Option` tuple. -/
def projKey (r : Report) :
    Option String × Option String × Option String × Option String × Option String :=
  (r.stateName, r.phaseName, r.componentName, r.institution_name, r.district)

/-- The rows of a project partition within a scope. -/
def partitionOf (rows : List Report)
    (k : Option String × Option String × Option String × Option String × Option String) :
    List Report :=
  rows.filter (fun x => decide (projKey x = k))

/-- `row_number() OVER (PARTITION BY project_key ORDER BY year DESC,
month_order DESC) = 1` (`routes.py` lines 119-129): a row is rank 1 exactly
when it is the row the descending sort of its partition puts first. -/
def rank1 (rows : List Report) : List Report :=
  rows.filter (fun r => decide (pickLatest (partitionOf rows (projKey r)) = some r))

/-- A SQLAlchemy `column == value` comparison with a Python value: when the
value is `None`, SQLAlchemy renders `IS NULL` (two-valued); otherwise it
renders SQL `=`, which gives `NULL` when the column is `NULL`. -/
def eqSA {α : Type} [DecidableEq α] : Option α → Option α → Option Bool
  | col, none => some (decide (col = none))
  | none, some _ => none
  | some a, some b => some (decide (a = b))

/-- SQL `AND` (Kleene three-valued conjunction). -/
def and3 : Option Bool → Option Bool → Option Bool
  | some false, _ => some false
  | _, some false => some false
  | some true, some true => some true
  | _, _ => none

/-- SQL `NOT`. -/
def not3 : Option Bool → Option Bool
  | some b => some (!b)
  | none => none

/-- The missing-report detector (`routes.py` lines 110-135):
* the latest period comes from `MprReport.query` — the whole table, not the
  filtered query (line 110);
* rows of the *filtered* scope are ranked per project partition, rank-1 rows
  are kept (lines 119-129), restricted to `project_status == 'Ongoing'`
  (line 131);
* finally rows satisfying `~and_(year == latest_year, months == latest_month)`
  are kept (lines 133-135): each `==` against a Python `None` renders as
  `IS NULL`, otherwise as SQL `=`, and the conjunction and negation follow
  SQL three-valued logic. -/
def missing_reports (db : List Report) (f : Filters) : List Report :=
  match pickLatest db with
  | none => []
  | some latest =>
    ((rank1 (applyFilters f db)).filter
        (fun r => decide (r.project_status = some "Ongoing"))).filter
      (fun r =>
        decide (not3 (and3 (eqSA r.year latest.year) (eqSA r.months latest.months)) = some true))

/-- The analytics scope (`routes.py` line 77): the filtered query further
restricted to rows whose joined `State.name`, `RusaPhase.name` and
`Component.name` are all non-null; every grouped-analytics output
(`interactive_summary_query`, `state_phase_summary`,
`state_phase_component_summary`) is computed from these rows. -/
def analytics_rows (db : List Report) (f : Filters) : List Report :=
  (applyFilters f db).filter
    (fun r => r.stateName.isSome && r.phaseName.isSome && r.componentName.isSome)

/-- SQLite ascending order on a nullable text column: `NULL` sorts first. -/
def optStrLE (x y : Option String) : Bool :=
  match x, y with
  | none, _ => true
  | some _, none => false
  | some s, some t => decide (s ≤ t)

/-- The listing sort comparator (`routes.py` lines 65-67): `ORDER BY year
DESC, month_order DESC, State.name, RusaPhase.name`. -/
def listingLE (a b : Report) : Bool :=
  if skey a = skey b then
    if a.stateName = b.stateName then optStrLE a.phaseName b.phaseName
    else optStrLE a.stateName b.stateName
  else keyLt (skey b) (skey a)

/-- The sorted listing (`routes.py` lines 59-67): the filtered rows (kept by
the outer joins even when their reference keys are null) in listing order. -/
def sorted_listing (db : List Report) (f : Filters) : List Report :=
  (applyFilters f db).mergeSort listingLE

/-- One page of the paginated listing (`routes.py` lines 18-19 and 69,
`per_page = 20`). -/
def listing_page (db : List Report) (f : Filters) (page : Nat) : List Report :=
  ((sorted_listing db f).drop ((page - 1) * 20)).take 20

/-- First-occurrence deduplication (the distinct group keys of a `GROUP BY`,
in first-appearance order; the SQL `ORDER BY` on the grouped rows only
affects presentation order). -/
def firstDedup {α : Type} [DecidableEq α] (l : List α) : List α :=
  l.foldl (fun acc x => if x ∈ acc then acc else acc ++ [x]) []

def statusOngoing (r : Report) : Bool := decide (r.project_status = some "Ongoing")

def statusCompleted (r : Report) : Bool := decide (r.project_status = some "Completed")

def pmFlag (r : Report) : Bool :=
  decide (r.whether_pm_digitally_launched_project_yes_no_ = some "Yes")

/-- One row of the `interactive_summary_query` result (`routes.py` lines
79-88): a `(State.name, RusaPhase.name)` group with its six aggregates. -/
structure GroupRow where
  state : String
  rusa_phase : String
  total : Nat
  ongoing : Nat
  completed : Nat
  pm_launched : Nat
  pm_ongoing : Nat
  pm_completed : Nat
deriving DecidableEq, Repr

/-- The rows of one `(state, phase)` group of the analytics scope. -/
def groupOf (rows : List Report) (k : String × String) : List Report :=
  rows.filter (fun r => decide (r.stateName = some k.1) && decide (r.phaseName = some k.2))

/-- `interactive_summary_query` (`routes.py` lines 79-88): `GROUP BY
State.name, RusaPhase.name` over the analytics scope, with `COUNT` and the
five conditional `SUM(CASE ...)` aggregates. -/
def interactive_summary_query (db : List Report) (f : Filters) : List GroupRow :=
  (firstDedup ((analytics_rows db f).map
      (fun r => (r.stateName.getD "", r.phaseName.getD "")))).map
    (fun k =>
      let g := groupOf (analytics_rows db f) k
      ⟨k.1, k.2, g.length, g.countP statusOngoing, g.countP statusCompleted,
       g.countP pmFlag, g.countP (fun r => pmFlag r && statusOngoing r),
       g.countP (fun r => pmFlag r && statusCompleted r)⟩)

/-- The six summary categories of `routes.py` lines 90-98. -/
inductive Cat
  | total
  | ongoing
  | completed
  | pm_launched
  | pm_ongoing
  | pm_completed
deriving DecidableEq, Repr

def catList : List Cat :=
  [Cat.total, Cat.ongoing, Cat.completed, Cat.pm_launched, Cat.pm_ongoing, Cat.pm_completed]

/-- `row[i]` for the category columns (`routes.py` line 95 enumerates the
aggregate columns starting at index 2). -/
def GroupRow.catVal (g : GroupRow) : Cat → Nat
  | Cat.total => g.total
  | Cat.ongoing => g.ongoing
  | Cat.completed => g.completed
  | Cat.pm_launched => g.pm_launched
  | Cat.pm_ongoing => g.pm_ongoing
  | Cat.pm_completed => g.pm_completed

/-- The per-category cell of `state_summary_interactive`: the running total
and the per-phase dictionary (`routes.py` lines 90-92). -/
structure CatData where
  count : Nat
  phases : List (String × Nat)
deriving DecidableEq, Repr

/-- `defaultdict(int)` increment of a phase entry. -/
def bumpPhase : List (String × Nat) → String → Nat → List (String × Nat)
  | [], p, c => [(p, c)]
  | (q, n) :: t, p, c =>
    if q = p then (q, n + c) :: t else (q, n) :: bumpPhase t p c

def sumPhases (l : List (String × Nat)) : Nat := (l.map Prod.snd).sum

/-- One accumulation step of `routes.py` lines 96-98: add `c` to the
`(state, category)` cell's `count` and to its `phases[phase]` entry (the
nested `defaultdict` structure is flattened to a `(state, category)`-keyed
association list; the nesting and the final sorting of lines 100-104 are
presentational). -/
def bumpSummary : List ((String × Cat) × CatData) → (String × Cat) → String → Nat →
    List ((String × Cat) × CatData)
  | [], key, p, c => [(key, ⟨c, [(p, c)]⟩)]
  | (k, d) :: t, key, p, c =>
    if k = key then (k, ⟨d.count + c, bumpPhase d.phases p c⟩) :: t
    else (k, d) :: bumpSummary t key p c

/-- The `state_summary_interactive` accumulation loop (`routes.py` lines
94-98): for each grouped row and each category with a positive value, bump
the state/category cell. -/
def state_summary_interactive (db : List Report) (f : Filters) :
    List ((String × Cat) × CatData) :=
  (interactive_summary_query db f).foldl
    (fun acc g =>
      catList.foldl
        (fun acc c =>
          let n := g.catVal c
          if 0 < n then bumpSummary acc (g.state, c) g.rusa_phase n else acc)
        acc)
    []

/-- The per-cell invariant: `count` equals the sum of the phase entries. -/
def SumInv (l : List ((String × Cat) × CatData)) : Prop :=
  ∀ e ∈ l, e.2.count = sumPhases e.2.phases

/-! Embedding of the query-string filter plumbing: `remove_filter`
(`main.py` lines 24-33) over `urllib.parse.parse_qs` / `urlencode`, and the
`request.args.getlist` reads of `routes.py` lines 21-30.  A query string is
modelled as its ordered list of decoded key/value pairs (percent-encoding
round-trips through `urlencode`/`parse_qs` and is elided). -/

abbrev QS := List (String × String)

/-- `request.args.getlist k`: the values of key `k` in order (werkzeug keeps
blank values). -/
def valsAt (qs : QS) (k : String) : List String :=
  (qs.filter (fun p => decide (p.1 = k))).map Prod.snd

/-- `parse_qs` drops blank-valued parameters (`keep_blank_values` defaults to
`False`). -/
def dropBlank (qs : QS) : QS := qs.filter (fun p => !decide (p.2 = ""))

/-- `urllib.parse.parse_qs`: group the (non-blank) values by key, keys in
first-occurrence order. -/
def parse_qs (qs : QS) : List (String × List String) :=
  (firstDedup ((dropBlank qs).map Prod.fst)).map
    (fun k => (k, valsAt (dropBlank qs) k))

/-- `urllib.parse.urlencode(params, doseq=True)`: one pair per value. -/
def urlencode (params : List (String × List String)) : QS :=
  params.flatMap (fun q => q.2.map (fun v => (q.1, v)))

/-- The parameter-dict mutation of `remove_filter` (`main.py` lines 29-32):
the entry for `filter_key` keeps only the values different from
`value_to_remove`, and is deleted when that list becomes empty; other
entries are untouched. -/
def removeParams (k v : String) : List (String × List String) → List (String × List String)
  | [] => []
  | (a, b) :: t =>
    if a = k then
      (if b.filter (fun x => !decide (x = v)) = [] then removeParams k v t
       else (a, b.filter (fun x => !decide (x = v))) :: removeParams k v t)
    else (a, b) :: removeParams k v t

/-- `remove_filter` (`main.py` lines 24-33): parse the query string, drop
`value_to_remove` from `filter_key`'s list, delete the key when its list
becomes empty, re-encode. -/
def remove_filter (qs : QS) (k v : String) : QS :=
  urlencode (removeParams k v (parse_qs qs))

/-- The `Filters` read from a query string (`routes.py` lines 21-30 and the
`int(y)` conversion of line 49; `none` models the `ValueError` crash on a
non-numeric year value). -/
def filtersOfQS (qs : QS) : Option Filters :=
  match (valsAt qs "year").mapM String.toInt? with
  | none => none
  | some ys =>
    some ⟨valsAt qs "state", valsAt qs "rusa_phase", valsAt qs "component_name",
          valsAt qs "institution_name", valsAt qs "district",
          valsAt qs "project_status", ys, valsAt qs "months"⟩

/-- The filtered row set a query string denotes. -/
def applyFiltersQS (qs : QS) (db : List Report) : List Report :=
  match filtersOfQS qs with
  | none => []
  | some f => applyFilters f db

/-- All values of key `k` across a grouped parameter list, in order. -/
def gather (params : List (String × List String)) (k : String) : List String :=
  ((params.filter (fun q => decide (q.1 = k))).map Prod.snd).flatten

/-! Embedding of the `migrate-data` command (`main.py` lines 121-202). -/

/-- A reference table (`states` / `rusa_phases`): rows `(id, name)`. -/
abbrev RefTable := List (Nat × String)

/-- The columns of `mpr_report` read or written by `migrate-data`. -/
structure MigReport where
  state : Option String
  rusa_phase : Option String
  state_id : Option Nat
  rusa_phase_id : Option Nat
deriving DecidableEq, Repr

/-- The database state seen by `migrate-data`. -/
structure MigDb where
  states : RefTable
  phases : RefTable
  reports : List MigReport
deriving DecidableEq, Repr

/-- The seed list of `main.py` lines 134-142. -/
def STATES : List String :=
  ["Andaman & Nicobar Islands", "Andhra Pradesh", "Arunachal Pradesh", "Assam",
   "Bihar", "Chandigarh", "Chhattisgarh", "Dadra and Nagar Haveli and Daman and Diu",
   "Delhi", "Goa", "Gujarat", "Haryana", "Himachal Pradesh", "Jammu & Kashmir",
   "Jharkhand", "Karnataka", "Kerala", "Ladakh", "Lakshdweep", "Madhya Pradesh",
   "Maharashtra", "Manipur", "Meghalaya", "Mizoram", "Nagaland", "Odisha",
   "Puducherry", "Punjab", "Rajasthan", "Sikkim", "Tamil Nadu", "Telangana",
   "Tripura", "Uttar Pradesh", "Uttarakhand", "West Bengal"]

/-- The seed list of `main.py` line 150. -/
def RUSA_PHASES : List String := ["RUSA 1", "RUSA 2", "PM-UShA"]

/-- `normalize_name` (`main.py` lines 127-130) applied to a string:
`name.lower().strip().replace(chr(38), "and")`. -/
def normStr (s : String) : String := (s.toLower.trim).replace "&" "and"

/-- `normalize_name`: a non-string (here, a `NULL` column) gives `None`. -/
def normalize_name : Option String → Option String
  | none => none
  | some s => some (normStr s)

def containsName (t : RefTable) (n : String) : Bool :=
  t.any (fun e => decide (e.2 = n))

/-- Autoincrement id for a fresh reference row. -/
def nextId (t : RefTable) : Nat := (t.map Prod.fst).foldl max 0 + 1

/-- Seed the names that are absent (`main.py` lines 143-146 and 151-154). -/
def seedNames (t : RefTable) (names : List String) : RefTable :=
  names.foldl (fun t n => if containsName t n then t else t ++ [(nextId t, n)]) t

/-- Python-dict insertion (overwrite semantics).  Values are `Option Nat`
because the alias entries of lines 162-163 store `dict.get` results, which
can be `None`. -/
def mapInsert (m : List (String × Option Nat)) (k : String) (v : Option Nat) :
    List (String × Option Nat) :=
  if m.any (fun p => decide (p.1 = k)) then
    m.map (fun p => if decide (p.1 = k) then (p.1, v) else p)
  else m ++ [(k, v)]

/-- Python `dict.get` (default `None`). -/
def mapGet (m : List (String × Option Nat)) (k : String) : Option Nat :=
  match m.find? (fun p => decide (p.1 = k)) with
  | some p => p.2
  | none => none

/-- Python `key in dict`. -/
def mapHas (m : List (String × Option Nat)) (k : String) : Bool :=
  (m.find? (fun p => decide (p.1 = k))).isSome

/-- The normalized name-to-id maps of `main.py` lines 158-159. -/
def buildMap (t : RefTable) : List (String × Option Nat) :=
  t.foldl (fun m e => mapInsert m (normStr e.2) (some e.1)) []

/-- The states map including the two manual alias entries of lines 162-163. -/
def statesMapWithAliases (t : RefTable) : List (String × Option Nat) :=
  let m0 := buildMap t
  let m1 := mapInsert m0 "dadra and nagar haveli"
    (mapGet m0 (normStr "Dadra and Nagar Haveli and Daman and Diu"))
  mapInsert m1 "the dadra and nagar haveli and daman and diu"
    (mapGet m1 (normStr "Dadra and Nagar Haveli and Daman and Diu"))

/-- One foreign-key assignment (`main.py` lines 173-176 / 181-183): a name
whose normalization is truthy and present in the map gets the map value;
otherwise the field is left as it was. -/
def matchField (m : List (String × Option Nat)) (raw : Option String)
    (old : Option Nat) : Option Nat :=
  match raw with
  | none => old
  | some s =>
    if decide (normStr s ≠ "") && mapHas m (normStr s) then mapGet m (normStr s)
    else old

/-- The unmatched-set contribution of one field (`main.py` lines 177-178 /
184-185): reached only when the match failed and the raw text is truthy. -/
def unmField (m : List (String × Option Nat)) (raw : Option String) :
    Option String :=
  match raw with
  | none => none
  | some s =>
    if decide (normStr s ≠ "") && mapHas m (normStr s) then none
    else if decide (s ≠ "") then some s else none

/-- The per-report mutation of the migration loop. -/
def stepReport (sm pm : List (String × Option Nat)) (r : MigReport) : MigReport :=
  { r with
    state_id := matchField sm r.state r.state_id,
    rusa_phase_id := matchField pm r.rusa_phase r.rusa_phase_id }

/-- Python `set.add`, in insertion order (the report at lines 193-196 only
uses the set's contents). -/
def addUnm (l : List String) : Option String → List String
  | none => l
  | some s => if s ∈ l then l else l ++ [s]

/-- The migration loop over all reports (`main.py` lines 168-188). -/
def processReports (sm pm : List (String × Option Nat)) (rs : List MigReport) :
    List MigReport × List String × List String :=
  rs.foldl
    (fun acc r =>
      (acc.1 ++ [stepReport sm pm r],
       addUnm acc.2.1 (unmField sm r.state),
       addUnm acc.2.2 (unmField pm r.rusa_phase)))
    ([], [], [])

/-- `migrate-data` (`main.py` lines 121-202): seed states and phases, build
the normalized maps (with aliases), backfill the foreign keys of every
report, and return the new database state together with the
unmatched-states and unmatched-phases sets. -/
def migrate_data (db : MigDb) : MigDb × List String × List String :=
  let states1 := seedNames db.states STATES
  let phases1 := seedNames db.phases RUSA_PHASES
  let sm := statesMapWithAliases states1
  let pm := buildMap phases1
  let res := processReports sm pm db.reports
  (⟨states1, phases1, res.1⟩, res.2.1, res.2.2)

/-! Embedding of the `load-data` command (`main.py` lines 81-119) over an
explicit transaction model: `pending` is the uncommitted working state,
`committed` the durable one; `commit` publishes, `rollback` discards. -/

structure DbSession (α : Type) where
  committed : List α
  pending : List α
deriving DecidableEq, Repr

def DbSession.start {α : Type} (db : List α) : DbSession α := ⟨db, db⟩

/-- `db.session.query(MprReport).delete()` (uncommitted). -/
def DbSession.deleteAll {α : Type} (s : DbSession α) : DbSession α :=
  { s with pending := [] }

/-- `db.session.add(record)` (uncommitted). -/
def DbSession.add {α : Type} (s : DbSession α) (x : α) : DbSession α :=
  { s with pending := s.pending ++ [x] }

def DbSession.commit {α : Type} (s : DbSession α) : DbSession α :=
  ⟨s.pending, s.pending⟩

def DbSession.rollback {α : Type} (s : DbSession α) : DbSession α :=
  ⟨s.committed, s.committed⟩

/-- `load-data` (`main.py` lines 81-119): clear the `mpr_report` table, open
the spreadsheet (`file = none` models `FileNotFoundError` at line 90), add
one record per row, commit; on a missing file the handler at lines 114-116
reports the error and rolls back.  Returns the committed table and whether
an error was reported. -/
def load_data (db : List Report) (file : Option (List Report)) :
    List Report × Bool :=
  let s := DbSession.start db
  let s := s.deleteAll
  match file with
  | none => ((s.rollback).committed, true)
  | some rows => (((rows.foldl DbSession.add s).commit).committed, false)

/-! Concrete scenario rows, used to instantiate the theorems (these mirror the
fixtures described in the specification's testable-properties section). -/

/-- Project K, reported only in (2024, "June"), status Ongoing. -/
def rJun : Report :=
  ⟨1, some "Kerala", some "RUSA 1", some "Infrastructure Grants to Colleges",
   some "InstX", some "D1", some "Ongoing", some 2024, some "June", some "No"⟩

/-- A different project reported in the global latest period (2025, "October"). -/
def rOct : Report :=
  ⟨2, some "Punjab", some "RUSA 2", some "Faculty Improvement",
   some "InstY", some "D2", some "Ongoing", some 2025, some "October", some "Yes"⟩

/-- Project K again, but reported in the latest period (2025, "October"). -/
def rOctK : Report :=
  ⟨3, some "Kerala", some "RUSA 1", some "Infrastructure Grants to Colleges",
   some "InstX", some "D1", some "Ongoing", some 2025, some "October", some "No"⟩

/-- A rank-1 Ongoing row with the latest year but a NULL month. -/
def rNull : Report :=
  ⟨4, some "Goa", some "RUSA 1", some "Preparatory Grants",
   some "InstN", some "D3", some "Ongoing", some 2025, none, some "No"⟩

/-- A project whose only (hence most recent) row is Completed and stale. -/
def rComp : Report :=
  ⟨5, some "Assam", some "RUSA 2", some "Faculty Improvement",
   some "InstC", some "D4", some "Completed", some 2024, some "May", some "No"⟩

/-- A stale Ongoing project (genuinely missing). -/
def rStale : Report :=
  ⟨6, some "Bihar", some "RUSA 1", some "Preparatory Grants",
   some "InstS", some "D5", some "Ongoing", some 2024, some "May", some "Yes"⟩

def dbA : List Report := [rJun, rOct]

def dbB : List Report := [rJun, rOctK]

def dbN : List Report := [rNull, rOct]

def dbC : List Report := [rComp, rStale, rOct]

/-- Filter selection `state=["Kerala"]`. -/
def fKerala : Filters := ⟨["Kerala"], [], [], [], [], [], [], []⟩

/-- A row whose normalized foreign keys are all null (unmatched free text). -/
def rNullKey : Report :=
  ⟨7, none, none, none, some "InstZ", some "D6", some "Ongoing",
   some 2024, some "April", none⟩

def dbF : List Report := [rJun, rNullKey]

/-- A query string containing a blank-valued `state` parameter. -/
def qsBlank : QS := [("state", ""), ("state", "Kerala")]

/-- A blank-free query string with two `state` values and a month. -/
def qsTwo : QS := [("state", "Kerala"), ("state", "Goa"), ("months", "June")]

/-! Helper lemmas about the recency order and the detector. -/

theorem keyLe_refl (a : Nat × Int × Nat) : keyLe a a = true := by
  simp [keyLe]

theorem keyLe_of_not_keyLt {a b : Nat × Int × Nat} (h : keyLt a b = false) :
    keyLe b a = true := by
  obtain ⟨a1, a2, a3⟩ := a
  obtain ⟨b1, b2, b3⟩ := b
  simp only [keyLt, keyLe, Bool.or_eq_false_iff, Bool.and_eq_false_iff,
    decide_eq_false_iff_not, Bool.or_eq_true, Bool.and_eq_true,
    decide_eq_true_eq, Prod.mk.injEq] at h ⊢
  omega

theorem keyLe_trans {a b c : Nat × Int × Nat} (h1 : keyLe a b = true)
    (h2 : keyLe b c = true) : keyLe a c = true := by
  obtain ⟨a1, a2, a3⟩ := a
  obtain ⟨b1, b2, b3⟩ := b
  obtain ⟨c1, c2, c3⟩ := c
  simp only [keyLe, keyLt, Bool.or_eq_true, Bool.and_eq_true,
    decide_eq_true_eq, Prod.mk.injEq] at h1 h2 ⊢
  omega

theorem keyLt_keyLe {a b : Nat × Int × Nat} (h : keyLt a b = true) :
    keyLe a b = true := by
  simp [keyLe, h]

theorem foldl_latest_spec (rows : List Report) (m : Report) :
    ∃ L, rows.foldl
        (fun acc r =>
          match acc with
          | none => some r
          | some m => if keyLt (skey m) (skey r) then some r else some m)
        (some m) = some L ∧
      (L = m ∨ L ∈ rows) ∧ keyLe (skey m) (skey L) = true ∧
      ∀ r ∈ rows, keyLe (skey r) (skey L) = true := by
  induction rows generalizing m with
  | nil => exact ⟨m, rfl, Or.inl rfl, keyLe_refl _, by simp⟩
  | cons r t ih =>
    by_cases h : keyLt (skey m) (skey r) = true
    · obtain ⟨L, hfold, hmem, hge, hall⟩ := ih r
      refine ⟨L, ?_, ?_, ?_, ?_⟩
      · simpa [h] using hfold
      · rcases hmem with h1 | h1
        · exact Or.inr (by simp [h1])
        · exact Or.inr (by simp [h1])
      · exact keyLe_trans (keyLt_keyLe h) hge
      · intro x hx
        rcases List.mem_cons.mp hx with h1 | h1
        · exact h1 ▸ hge
        · exact hall x h1
    · obtain ⟨L, hfold, hmem, hge, hall⟩ := ih m
      have hrle : keyLe (skey r) (skey m) = true :=
        keyLe_of_not_keyLt (Bool.eq_false_iff.mpr h)
      refine ⟨L, ?_, ?_, ?_, ?_⟩
      · simpa [h] using hfold
      · rcases hmem with h1 | h1
        · exact Or.inl h1
        · exact Or.inr (by simp [h1])
      · exact hge
      · intro x hx
        rcases List.mem_cons.mp hx with h1 | h1
        · exact h1 ▸ keyLe_trans hrle hge
        · exact hall x h1

theorem pickLatest_mem {rows : List Report} {L : Report}
    (h : pickLatest rows = some L) : L ∈ rows := by
  cases rows with
  | nil => simp [pickLatest] at h
  | cons r t =>
    obtain ⟨M, hfold, hmem, _, _⟩ := foldl_latest_spec t r
    rw [pickLatest, List.foldl_cons] at h
    simp only at h
    rw [hfold] at h
    cases h
    rcases hmem with h1 | h1
    · exact h1 ▸ List.mem_cons_self _ _
    · exact List.mem_cons_of_mem _ h1

theorem pickLatest_ge {rows : List Report} {L : Report}
    (h : pickLatest rows = some L) :
    ∀ r ∈ rows, keyLe (skey r) (skey L) = true := by
  cases rows with
  | nil => simp [pickLatest] at h
  | cons r t =>
    obtain ⟨M, hfold, _, hge, hall⟩ := foldl_latest_spec t r
    rw [pickLatest, List.foldl_cons] at h
    simp only at h
    rw [hfold] at h
    cases h
    intro x hx
    rcases List.mem_cons.mp hx with h1 | h1
    · exact h1 ▸ hge
    · exact hall x h1

theorem mem_rank1 {rows : List Report} {r : Report} :
    r ∈ rank1 rows ↔
      r ∈ rows ∧ pickLatest (partitionOf rows (projKey r)) = some r := by
  simp [rank1, List.mem_filter]

theorem mem_missing_reports {db : List Report} {f : Filters} {L r : Report}
    (hL : pickLatest db = some L) :
    r ∈ missing_reports db f ↔
      r ∈ rank1 (applyFilters f db) ∧ r.project_status = some "Ongoing" ∧
        not3 (and3 (eqSA r.year L.year) (eqSA r.months L.months)) = some true := by
  simp only [missing_reports, hL, List.mem_filter, decide_eq_true_eq]
  tauto

theorem eqSA_some_left {α : Type} [DecidableEq α] (a : α) (v : Option α) :
    eqSA (some a) v = some (decide (some a = v)) := by
  cases v <;> simp [eqSA]

/-! Claim theorems. -/

/-- Claim C1, counterexample to the claim as stated: `rNull` is a rank-1 row
of its project partition, has status Ongoing, and its `(year, months)` pair
differs from the global latest period `(2025, October)` — yet it is NOT in
the missing set, because its month is NULL and the negated SQL conjunction of
lines 133-135 evaluates to NULL.  So the detector does not select *exactly*
the rank-1 Ongoing rows whose period differs from the latest period. -/
theorem claim_C1_counterexample :
    rNull ∈ rank1 (applyFilters noFilters dbN) ∧
    rNull.project_status = some "Ongoing" ∧
    pickLatest dbN = some rOct ∧
    (rNull.year, rNull.months) ≠ (rOct.year, rOct.months) ∧
    rNull ∉ missing_reports dbN noFilters := by decide

/-- Claim C1 (amended): among rows whose `year` and `months` are both
non-null, the missing-report detector selects exactly the rows that are
rank 1 within their project partition, have status "Ongoing", and whose
`(year, months)` pair differs from the global latest period (for a non-null
row component, the `==` comparison of lines 133-135 is two-valued whether
the latest component is a value or `None`). -/
theorem claim_C1_missing_exactly (db : List Report) (f : Filters) (r L : Report)
    (ry : Int) (rm : String)
    (hL : pickLatest db = some L) (hry : r.year = some ry) (hrm : r.months = some rm) :
    r ∈ missing_reports db f ↔
      r ∈ rank1 (applyFilters f db) ∧ r.project_status = some "Ongoing" ∧
        (r.year, r.months) ≠ (L.year, L.months) := by
  rw [mem_missing_reports hL]
  refine and_congr_right fun _ => and_congr_right fun _ => ?_
  rw [hry, hrm, eqSA_some_left, eqSA_some_left]
  by_cases h1 : (some ry : Option Int) = L.year <;>
    by_cases h2 : (some rm : Option String) = L.months <;>
      simp [and3, not3, h1, h2, Prod.ext_iff]

/-- Claim C1, witness: project K present only in (2024, "June") with status
Ongoing appears in the missing set when the global latest period is
(2025, "October"); with an additional Ongoing row for K in the latest period,
nothing is missing. -/
theorem claim_C1_witness :
    rJun ∈ missing_reports dbA noFilters ∧ missing_reports dbB noFilters = [] :=
  ⟨(claim_C1_missing_exactly dbA noFilters rJun rOct 2024 "June"
      (by decide) rfl rfl).mpr ⟨by decide, rfl, by decide⟩,
   by decide⟩

/-- Claim C2, counterexample to the claim as stated: with the filter
`state=["Kerala"]`, the latest period over the rows satisfying the filter is
`rJun`'s own period (2024, "June") — so under the claim `rJun` could never be
flagged missing — yet the detector flags it, because line 110 computes the
latest period from `MprReport.query`, the whole unfiltered table, whose
latest period is (2025, "October"). -/
theorem claim_C2_counterexample :
    pickLatest (applyFilters fKerala dbA) = some rJun ∧
    rJun ∈ missing_reports dbA fKerala ∧
    pickLatest dbA = some rOct ∧
    (rJun.year, rJun.months) ≠ (rOct.year, rOct.months) := by decide

/-- Claim C2 (amended): the latest period used by the missing-report detector
is computed over ALL rows of the table, regardless of the filter selection:
it is the period of a row of the full table whose (year-desc, month-rank-desc)
key is maximal among all rows, and for every filter selection the missing-set
comparison is made against that same table-wide latest row. -/
theorem claim_C2_latest_global (db : List Report) (L : Report)
    (hL : pickLatest db = some L) :
    L ∈ db ∧ (∀ r ∈ db, keyLe (skey r) (skey L) = true) ∧
    ∀ (f : Filters) (r : Report), r ∈ missing_reports db f →
      not3 (and3 (eqSA r.year L.year) (eqSA r.months L.months)) = some true := by
  refine ⟨pickLatest_mem hL, pickLatest_ge hL, fun f r hr => ?_⟩
  exact ((mem_missing_reports hL).mp hr).2.2

/-- Claim C2, witness: on the two-row table `dbA` the latest row is `rOct`,
which belongs to the table and dominates `rJun` in the recency order. -/
theorem claim_C2_witness :
    rOct ∈ dbA ∧ keyLe (skey rJun) (skey rOct) = true :=
  ⟨(claim_C2_latest_global dbA rOct (by decide)).1,
   (claim_C2_latest_global dbA rOct (by decide)).2.1 rJun (by decide)⟩

/-- Claim C3: a project whose rank-1 (most recent) row has a status other
than "Ongoing" is never in the missing set, even when its period is stale:
no row of the missing set carries that project key. -/
theorem claim_C3_non_ongoing_never_missing (db : List Report) (f : Filters)
    (k : Option String × Option String × Option String × Option String × Option String)
    (r0 : Report)
    (h1 : pickLatest (partitionOf (applyFilters f db) k) = some r0)
    (h2 : r0.project_status ≠ some "Ongoing") :
    ∀ r ∈ missing_reports db f, projKey r ≠ k := by
  intro r hr hk
  cases hpick : pickLatest db with
  | none => rw [missing_reports, hpick] at hr; simp at hr
  | some L =>
    obtain ⟨hr1, hst, _⟩ := (mem_missing_reports hpick).mp hr
    obtain ⟨_, htop⟩ := mem_rank1.mp hr1
    rw [hk, h1] at htop
    cases htop
    exact h2 hst

/-- Claim C3, witness: in `dbC` the Completed project `rComp` is stale but
never flagged, while the stale Ongoing project `rStale` is flagged; the two
project keys differ by the theorem. -/
theorem claim_C3_witness : projKey rStale ≠ projKey rComp :=
  claim_C3_non_ongoing_never_missing dbC noFilters (projKey rComp) rComp
    (by decide) (by decide) rStale (by decide)

/-- Claim C5: the month rank of every row is at most 12 (it is a natural
number, hence in {0, ..., 12}); NULL months rank 0; every unrecognized month
string ranks 0; the twelve English month names rank January=1 through
December=12; and under the descending recency order a rank-0 row of a given
year sorts strictly after any row of the same year with a recognized month. -/
theorem claim_C5_month_rank (s : String) (hs : s ∉ monthNames) (a b : Report)
    (hy : a.year = b.year) (h0 : month_order a.months = 0)
    (h1 : 1 ≤ month_order b.months) :
    month_order (some s) = 0 ∧
    keyLt (skey a) (skey b) = true ∧
    (∀ m, month_order m ≤ 12) ∧
    month_order none = 0 ∧
    monthNames.map (fun n => month_order (some n)) =
      [1, 2, 3, 4, 5, 6, 7, 8, 9, 10, 11, 12] := by
  refine ⟨?_, ?_, ?_, rfl, by decide⟩
  · have hfind : monthCase.find? (fun p => p.1 == s) = none := by
      cases hf : monthCase.find? (fun p => p.1 == s) with
      | none => rfl
      | some p =>
        have hp1 : p ∈ monthCase := List.mem_of_find?_eq_some hf
        have hp2 := List.find?_some hf
        have hkeys : ∀ q ∈ monthCase, q.1 ∈ monthNames := by decide
        have hmem := hkeys p hp1
        rw [eq_of_beq hp2] at hmem
        exact absurd hmem hs
    simp [month_order, hfind]
  · have h2 : month_order a.months < month_order b.months := by omega
    simp only [keyLt, skey, hy]
    simp [h2]
  · intro m
    cases m with
    | none => simp [month_order]
    | some s =>
      cases hf : monthCase.find? (fun p => p.1 == s) with
      | none => simp [month_order, hf]
      | some p =>
        have hvals : ∀ q ∈ monthCase, q.2 ≤ 12 := by decide
        simp only [month_order, hf, Option.map_some, Option.getD_some]
        exact hvals p (List.mem_of_find?_eq_some hf)

/-- Claim C5, witness: the unrecognized month string "Octobre" ranks 0, and
the NULL-month row `rNull` sorts strictly after the recognized-month row
`rOctK` of the same year (2025) under the descending recency order. -/
theorem claim_C5_witness :
    month_order (some "Octobre") = 0 ∧ keyLt (skey rNull) (skey rOctK) = true :=
  ⟨(claim_C5_month_rank "Octobre" (by decide) rNull rOctK rfl rfl (by decide)).1,
   (claim_C5_month_rank "Octobre" (by decide) rNull rOctK rfl rfl (by decide)).2.1⟩

/-- Claim C10: the inequality test of lines 133-135 is the negation of a SQL
conjunction, so a rank-1 Ongoing row — indeed any row — whose year or months
is NULL is excluded from the missing set whenever each non-null component
equals the corresponding component of the (non-null) latest period: the
negated NULL-valued conjunction is NULL, and the row is filtered out even
though its period is not the latest period. -/
theorem claim_C10_null_period_excluded (db : List Report) (f : Filters)
    (r L : Report) (ly : Int) (lm : String)
    (hL : pickLatest db = some L) (hLy : L.year = some ly) (hLm : L.months = some lm)
    (hnull : r.year = none ∨ r.months = none)
    (hy : r.year = none ∨ r.year = some ly)
    (hm : r.months = none ∨ r.months = some lm) :
    r ∉ missing_reports db f ∧ (r.year, r.months) ≠ (L.year, L.months) := by
  constructor
  · intro hr
    have hcond := ((mem_missing_reports hL).mp hr).2.2
    rw [hLy, hLm] at hcond
    rcases hy with h1 | h1 <;> rcases hm with h2 | h2 <;>
      simp [h1, h2, eqSA, and3, not3] at hcond
  · rcases hnull with h1 | h1
    · rw [h1, hLy]; simp
    · rw [h1, hLm]; simp

/-- Claim C10, witness: `rNull` (year 2025 equal to the latest year, month
NULL) is a rank-1 Ongoing row of `dbN` and is excluded from the missing set. -/
theorem claim_C10_witness :
    rNull ∈ rank1 (applyFilters noFilters dbN) ∧
    rNull ∉ missing_reports dbN noFilters :=
  ⟨by decide,
   (claim_C10_null_period_excluded dbN noFilters rNull rOct 2025 "October"
     (by decide) rfl rfl (Or.inr rfl) (Or.inr rfl) (Or.inl rfl)).1⟩

/-- Claim C6: the analytics scope — from which every grouped-analytics output
(`interactive_summary_query`, and the state/phase and state/phase/component
summaries) is computed — contains only rows whose state, phase and component
references are all non-null; the raw listing keeps every row of the
unfiltered scope (the outer joins drop nothing), and every such row appears
on some page of the paginated listing, null-keyed rows included. -/
theorem claim_C6_null_keys (db : List Report) (f : Filters) :
    (∀ r ∈ analytics_rows db f,
      r.stateName ≠ none ∧ r.phaseName ≠ none ∧ r.componentName ≠ none) ∧
    (∀ r ∈ db, r ∈ sorted_listing db noFilters) ∧
    (∀ r ∈ db, ∃ page, r ∈ listing_page db noFilters page) := by
  have hmem : ∀ r ∈ db, r ∈ sorted_listing db noFilters := by
    intro r hr
    rw [sorted_listing, List.mem_mergeSort]
    simpa [applyFilters, noFilters] using hr
  refine ⟨?_, hmem, ?_⟩
  · intro r hr
    have h := (List.mem_filter.mp hr).2
    simp only [Bool.and_eq_true] at h
    exact ⟨Option.ne_none_iff_isSome.mpr h.1.1, Option.ne_none_iff_isSome.mpr h.1.2,
      Option.ne_none_iff_isSome.mpr h.2⟩
  · intro r hr
    have h := hmem r hr
    obtain ⟨i, hi, hget⟩ := List.mem_iff_getElem.mp h
    refine ⟨i / 20 + 1, ?_⟩
    rw [listing_page]
    have hd : (i / 20 + 1 - 1) * 20 = 20 * (i / 20) := by omega
    rw [hd]
    have hmod : i % 20 < 20 := Nat.mod_lt _ (by omega)
    set l := sorted_listing db noFilters with hl
    have h2 : i % 20 < (l.drop (20 * (i / 20))).length := by
      rw [List.length_drop]; omega
    have h3 : i % 20 < ((l.drop (20 * (i / 20))).take 20).length := by
      rw [List.length_take]; omega
    have hix : ((l.drop (20 * (i / 20))).take 20)[i % 20] = l[i] := by
      rw [List.getElem_take, List.getElem_drop]
      congr 1
      omega
    rw [← hget, ← hix]
    exact List.getElem_mem _

/-- Claim C6, witness: in `dbF`, the fully-keyed row `rJun` is in the
analytics scope with all references non-null, and the null-keyed row
`rNullKey` still appears in the unfiltered raw listing. -/
theorem claim_C6_witness :
    rJun.stateName ≠ none ∧ rNullKey ∈ sorted_listing dbF noFilters :=
  ⟨((claim_C6_null_keys dbF noFilters).1 rJun (by decide)).1,
   (claim_C6_null_keys dbF noFilters).2.1 rNullKey (by decide)⟩

theorem sumPhases_bumpPhase (l : List (String × Nat)) (p : String) (c : Nat) :
    sumPhases (bumpPhase l p c) = sumPhases l + c := by
  induction l with
  | nil => simp [bumpPhase, sumPhases]
  | cons e t ih =>
    obtain ⟨q, n⟩ := e
    by_cases h : q = p
    · simp [bumpPhase, h, sumPhases]
      omega
    · simp only [bumpPhase, if_neg h]
      simp [sumPhases] at ih ⊢
      omega

theorem SumInv_bumpSummary {l : List ((String × Cat) × CatData)}
    (hl : SumInv l) (key : String × Cat) (p : String) (c : Nat) :
    SumInv (bumpSummary l key p c) := by
  induction l with
  | nil =>
    intro e he
    simp only [bumpSummary, List.mem_singleton] at he
    subst he
    simp [sumPhases]
  | cons ed t ih =>
    obtain ⟨k, d⟩ := ed
    have hd : d.count = sumPhases d.phases := hl ⟨k, d⟩ (by simp)
    have ht : SumInv t := fun e he => hl e (List.mem_cons_of_mem _ he)
    by_cases h : k = key
    · intro e he
      simp only [bumpSummary, if_pos h] at he
      rcases List.mem_cons.mp he with h1 | h1
      · subst h1
        simp [sumPhases_bumpPhase, hd]
      · exact ht e h1
    · intro e he
      simp only [bumpSummary, if_neg h] at he
      rcases List.mem_cons.mp he with h1 | h1
      · subst h1
        exact hd
      · exact ih ht e h1

theorem SumInv_catFold (g : GroupRow) (cs : List Cat)
    (acc : List ((String × Cat) × CatData)) (hacc : SumInv acc) :
    SumInv (cs.foldl
      (fun acc c =>
        let n := g.catVal c
        if 0 < n then bumpSummary acc (g.state, c) g.rusa_phase n else acc)
      acc) := by
  induction cs generalizing acc with
  | nil => exact hacc
  | cons c t ih =>
    rw [List.foldl_cons]
    apply ih
    by_cases h : 0 < g.catVal c
    · simpa [h] using SumInv_bumpSummary hacc (g.state, c) g.rusa_phase (g.catVal c)
    · simpa [h] using hacc

/-- Claim C4: in the interactive state summary, for every state and every
category, the `count` cell equals the sum of that cell's per-phase counts
(the accumulation of lines 94-98 always adds the same quantity to both). -/
theorem claim_C4_phase_sums (db : List Report) (f : Filters) :
    ∀ e ∈ state_summary_interactive db f, e.2.count = sumPhases e.2.phases := by
  have main : ∀ (gs : List GroupRow) (acc : List ((String × Cat) × CatData)),
      SumInv acc →
      SumInv (gs.foldl
        (fun acc g =>
          catList.foldl
            (fun acc c =>
              let n := g.catVal c
              if 0 < n then bumpSummary acc (g.state, c) g.rusa_phase n else acc)
            acc)
        acc) := by
    intro gs
    induction gs with
    | nil => exact fun acc hacc => hacc
    | cons g t ih =>
      intro acc hacc
      rw [List.foldl_cons]
      exact ih _ (SumInv_catFold g catList acc hacc)
  exact main (interactive_summary_query db f) [] (by intro e he; cases he)

/-- Claim C4, witness: over `dbA` (one Kerala/RUSA 1 row, one Punjab/RUSA 2
row), the Kerala `total` cell has count 1 and a single phase entry summing
to 1. -/
theorem claim_C4_witness : 1 = sumPhases [("RUSA 1", 1)] :=
  claim_C4_phase_sums dbA noFilters (("Kerala", Cat.total), ⟨1, [("RUSA 1", 1)]⟩)
    (by decide)

/-- Claim C9: when the spreadsheet file is missing, `load-data` reports the
error and leaves the database exactly as it was — the clear-all delete issued
before the file is opened is rolled back, so no record is deleted or added. -/
theorem claim_C9_missing_file_rollback (db : List Report) :
    load_data db none = (db, true) := rfl

theorem seedNames_cons (t : RefTable) (m : String) (rest : List String) :
    seedNames t (m :: rest) =
      seedNames (if containsName t m then t else t ++ [(nextId t, m)]) rest := rfl

theorem containsName_append {t : RefTable} {n : String} (x : Nat × String)
    (h : containsName t n = true) : containsName (t ++ [x]) n = true := by
  simp only [containsName, List.any_append, Bool.or_eq_true]
  exact Or.inl h

theorem containsName_seedNames_mono (names : List String) {t : RefTable}
    {n : String} (h : containsName t n = true) :
    containsName (seedNames t names) n = true := by
  induction names generalizing t with
  | nil => exact h
  | cons m rest ih =>
    rw [seedNames_cons]
    by_cases hc : containsName t m = true
    · rw [if_pos hc]; exact ih h
    · rw [if_neg hc]; exact ih (containsName_append _ h)

theorem containsName_seedNames_self (names : List String) (t : RefTable) :
    ∀ n ∈ names, containsName (seedNames t names) n = true := by
  induction names generalizing t with
  | nil => intro n hn; cases hn
  | cons m rest ih =>
    intro n hn
    rw [seedNames_cons]
    rcases List.mem_cons.mp hn with h1 | h1
    · subst h1
      by_cases hc : containsName t n = true
      · rw [if_pos hc]; exact containsName_seedNames_mono rest hc
      · rw [if_neg hc]
        apply containsName_seedNames_mono
        simp [containsName]
    · by_cases hc : containsName t m = true
      · rw [if_pos hc]; exact ih t n h1
      · rw [if_neg hc]; exact ih _ n h1

theorem seedNames_noop {t : RefTable} {names : List String}
    (h : ∀ n ∈ names, containsName t n = true) : seedNames t names = t := by
  induction names with
  | nil => rfl
  | cons m rest ih =>
    rw [seedNames_cons, if_pos (h m (by simp))]
    exact ih fun n hn => h n (List.mem_cons_of_mem _ hn)

theorem processReports_go (sm pm : List (String × Option Nat))
    (rs : List MigReport) (acc : List MigReport × List String × List String) :
    rs.foldl
      (fun acc r =>
        (acc.1 ++ [stepReport sm pm r],
         addUnm acc.2.1 (unmField sm r.state),
         addUnm acc.2.2 (unmField pm r.rusa_phase)))
      acc =
    (acc.1 ++ rs.map (stepReport sm pm),
     rs.foldl (fun l r => addUnm l (unmField sm r.state)) acc.2.1,
     rs.foldl (fun l r => addUnm l (unmField pm r.rusa_phase)) acc.2.2) := by
  induction rs generalizing acc with
  | nil => simp
  | cons r t ih =>
    rw [List.foldl_cons, ih]
    simp

theorem processReports_eq (sm pm : List (String × Option Nat))
    (rs : List MigReport) :
    processReports sm pm rs =
      (rs.map (stepReport sm pm),
       rs.foldl (fun l r => addUnm l (unmField sm r.state)) [],
       rs.foldl (fun l r => addUnm l (unmField pm r.rusa_phase)) []) := by
  rw [processReports, processReports_go]
  simp

theorem matchField_idem (m : List (String × Option Nat)) (raw : Option String)
    (old : Option Nat) :
    matchField m raw (matchField m raw old) = matchField m raw old := by
  cases raw with
  | none => rfl
  | some s =>
    by_cases h : (decide (normStr s ≠ "") && mapHas m (normStr s)) = true
    · simp only [matchField, if_pos h]
    · simp only [matchField, if_neg h]

theorem stepReport_idem (sm pm : List (String × Option Nat)) (r : MigReport) :
    stepReport sm pm (stepReport sm pm r) = stepReport sm pm r := by
  simp [stepReport, matchField_idem]

/-- Claim C8: the foreign-key backfill migration is idempotent — a second run
of `migrate-data` on the state produced by a first run returns exactly the
same database state (every matched `state_id` / `rusa_phase_id` maps to the
same reference id, unmatched rows are left untouched) and exactly the same
unmatched-states and unmatched-phases sets. -/
theorem claim_C8_idempotent (db : MigDb) :
    migrate_data (migrate_data db).1 = migrate_data db := by
  obtain ⟨S0, P0, R0⟩ := db
  have hS : seedNames (seedNames S0 STATES) STATES = seedNames S0 STATES :=
    seedNames_noop (containsName_seedNames_self STATES S0)
  have hP : seedNames (seedNames P0 RUSA_PHASES) RUSA_PHASES = seedNames P0 RUSA_PHASES :=
    seedNames_noop (containsName_seedNames_self RUSA_PHASES P0)
  simp only [migrate_data, processReports_eq]
  rw [hS, hP]
  rw [List.map_map, List.foldl_map, List.foldl_map]
  refine congrArg₂ Prod.mk (congrArg (MigDb.mk _ _) ?_) rfl
  exact List.map_congr_left fun r _ => stepReport_idem _ _ r

/-! Lemmas for the query-string pipeline. -/

theorem valsAt_cons (p : String × String) (qs : QS) (k : String) :
    valsAt (p :: qs) k = if p.1 = k then p.2 :: valsAt qs k else valsAt qs k := by
  by_cases h : p.1 = k <;> simp [valsAt, List.filter_cons, h]

theorem valsAt_append (a b : QS) (k : String) :
    valsAt (a ++ b) k = valsAt a k ++ valsAt b k := by
  simp [valsAt, List.filter_append]

theorem valsAt_mapPair (k1 k : String) (vs : List String) :
    valsAt (vs.map (fun v => (k1, v))) k = if k1 = k then vs else [] := by
  rw [valsAt, List.filter_map]
  by_cases h : k1 = k
  · rw [if_pos h]
    have hself : List.filter ((fun p => decide (p.1 = k)) ∘ fun v => (k1, v)) vs = vs := by
      rw [List.filter_eq_self]
      intro a ha
      simpa using h
    rw [hself, List.map_map]
    simp
  · rw [if_neg h]
    have hnil : List.filter ((fun p => decide (p.1 = k)) ∘ fun v => (k1, v)) vs = [] := by
      rw [List.filter_eq_nil_iff]
      intro a ha
      simpa using h
    rw [hnil]
    rfl

theorem valsAt_eq_nil {qs : QS} {k : String} (h : k ∉ qs.map Prod.fst) :
    valsAt qs k = [] := by
  rw [valsAt]
  have : qs.filter (fun p => decide (p.1 = k)) = [] := by
    rw [List.filter_eq_nil_iff]
    intro p hp
    simp only [decide_eq_true_eq]
    intro hk
    exact h (hk ▸ List.mem_map_of_mem Prod.fst hp)
  rw [this]
  rfl

theorem gather_cons (q : String × List String) (t : List (String × List String))
    (k : String) :
    gather (q :: t) k = (if q.1 = k then q.2 else []) ++ gather t k := by
  by_cases h : q.1 = k <;> simp [gather, List.filter_cons, h]

theorem valsAt_urlencode (params : List (String × List String)) (k : String) :
    valsAt (urlencode params) k = gather params k := by
  induction params with
  | nil => rfl
  | cons q t ih =>
    rw [urlencode, List.flatMap_cons, valsAt_append, valsAt_mapPair, gather_cons]
    rw [← urlencode, ih]

theorem mem_firstDedup_go {α : Type} [DecidableEq α] (l acc : List α) (y : α) :
    (y ∈ l.foldl (fun acc x => if x ∈ acc then acc else acc ++ [x]) acc) ↔
      y ∈ acc ∨ y ∈ l := by
  induction l generalizing acc with
  | nil => simp
  | cons x t ih =>
    rw [List.foldl_cons]
    by_cases hx : x ∈ acc
    · rw [if_pos hx, ih]
      simp only [List.mem_cons]
      constructor
      · rintro (h | h)
        · exact Or.inl h
        · exact Or.inr (Or.inr h)
      · rintro (h | h | h)
        · exact Or.inl h
        · exact Or.inl (h ▸ hx)
        · exact Or.inr h
    · rw [if_neg hx, ih]
      simp only [List.mem_append, List.mem_singleton, List.mem_cons]
      tauto

theorem mem_firstDedup {α : Type} [DecidableEq α] (l : List α) (y : α) :
    y ∈ firstDedup l ↔ y ∈ l := by
  rw [firstDedup, mem_firstDedup_go]
  simp

theorem nodup_firstDedup_go {α : Type} [DecidableEq α] (l acc : List α)
    (h : acc.Nodup) :
    (l.foldl (fun acc x => if x ∈ acc then acc else acc ++ [x]) acc).Nodup := by
  induction l generalizing acc with
  | nil => exact h
  | cons x t ih =>
    rw [List.foldl_cons]
    by_cases hx : x ∈ acc
    · rw [if_pos hx]; exact ih acc h
    · rw [if_neg hx]
      refine ih _ ?_
      rw [List.nodup_append]
      exact ⟨h, List.nodup_singleton x, by simp [List.disjoint_singleton, hx]⟩

theorem nodup_firstDedup {α : Type} [DecidableEq α] (l : List α) :
    (firstDedup l).Nodup :=
  nodup_firstDedup_go l [] List.nodup_nil

theorem filter_eq_of_nodup {l : List String} (h : l.Nodup) (k : String) :
    l.filter (fun x => decide (x = k)) = if k ∈ l then [k] else [] := by
  induction l with
  | nil => simp
  | cons x t ih =>
    obtain ⟨hx, ht⟩ := List.nodup_cons.mp h
    by_cases hxk : x = k
    · subst hxk
      rw [List.filter_cons, if_pos (by simp), ih ht, if_neg hx,
        if_pos (List.mem_cons_self x t)]
    · rw [List.filter_cons, if_neg (by simp [hxk]), ih ht]
      by_cases hk : k ∈ t
      · rw [if_pos hk, if_pos (List.mem_cons_of_mem _ hk)]
      · rw [if_neg hk, if_neg ?_]
        simp only [List.mem_cons, not_or]
        exact ⟨fun h1 => hxk h1.symm, hk⟩

theorem gather_parse_qs (qs : QS) (k : String) :
    gather (parse_qs qs) k = valsAt (dropBlank qs) k := by
  rw [parse_qs, gather, List.filter_map]
  have heq : ((fun q => decide (q.1 = k)) ∘ fun k0 => (k0, valsAt (dropBlank qs) k0)) =
      fun k0 => decide (k0 = k) := rfl
  rw [heq, filter_eq_of_nodup (nodup_firstDedup _) k]
  by_cases hk : k ∈ firstDedup ((dropBlank qs).map Prod.fst)
  · rw [if_pos hk]
    simp
  · rw [if_neg hk]
    rw [valsAt_eq_nil ((mem_firstDedup _ _).not.mp hk)]
    rfl

theorem gather_cons2 (a : String) (vs : List String)
    (t : List (String × List String)) (k : String) :
    gather ((a, vs) :: t) k = (if a = k then vs else []) ++ gather t k := by
  by_cases h : a = k <;> simp [gather, List.filter_cons, h]

theorem gather_removeParams (k v k1 : String)
    (params : List (String × List String)) :
    gather (removeParams k v params) k1 =
      (if k1 = k then (gather params k).filter (fun x => !decide (x = v))
       else gather params k1) := by
  induction params with
  | nil => by_cases h : k1 = k <;> simp [removeParams, gather, h]
  | cons q t ih =>
    obtain ⟨a, b⟩ := q
    by_cases hq : a = k
    · by_cases he : b.filter (fun x => !decide (x = v)) = []
      · rw [removeParams, if_pos hq, if_pos he, ih]
        by_cases h1 : k1 = k
        · simp [gather_cons2, hq, h1, he, List.filter_append]
        · simp [gather_cons2, hq, h1, Ne.symm h1, List.filter_append]
      · rw [removeParams, if_pos hq, if_neg he, gather_cons2, ih]
        by_cases h1 : k1 = k
        · simp [gather_cons2, hq, h1, List.filter_append]
        · simp [gather_cons2, hq, h1, Ne.symm h1, List.filter_append]
    · rw [removeParams, if_neg hq, gather_cons2, ih]
      by_cases h1 : k1 = k
      · simp [gather_cons2, hq, h1, List.filter_append]
      · simp [gather_cons2, hq, h1, Ne.symm h1, List.filter_append]

theorem filter_valsAt (qs : QS) (k1 : String) (g : String → Bool) :
    (valsAt qs k1).filter g = valsAt (qs.filter (fun p => g p.2)) k1 := by
  rw [valsAt, valsAt, List.filter_map, List.filter_filter, List.filter_filter]
  congr 1
  apply List.filter_congr
  intro a ha
  by_cases h2 : a.1 = k1 <;> simp [h2, Function.comp, Bool.and_comm]

theorem valsAt_filter_congr {f g : String × String → Bool} (qs : QS) (k1 : String)
    (h : ∀ p, p.1 = k1 → f p = g p) :
    valsAt (qs.filter f) k1 = valsAt (qs.filter g) k1 := by
  rw [valsAt, valsAt, List.filter_filter, List.filter_filter]
  congr 1
  apply List.filter_congr
  intro a ha
  by_cases h2 : a.1 = k1
  · simp [h2, h a h2]
  · simp [h2]

theorem valsAt_remove_filter (qs : QS) (k v : String)
    (hnb : ∀ p ∈ qs, p.2 ≠ "") (k1 : String) :
    valsAt (remove_filter qs k v) k1 =
      valsAt (qs.filter (fun p => !(decide (p.1 = k) && decide (p.2 = v)))) k1 := by
  have hdb : dropBlank qs = qs := by
    rw [dropBlank, List.filter_eq_self]
    intro p hp
    simpa using hnb p hp
  rw [remove_filter, valsAt_urlencode, gather_removeParams, gather_parse_qs,
    gather_parse_qs, hdb]
  by_cases h1 : k1 = k
  · subst h1
    rw [if_pos rfl, filter_valsAt]
    apply valsAt_filter_congr
    intro p hp
    simp [hp]
  · rw [if_neg h1]
    have hall : valsAt (qs.filter
        (fun p => !(decide (p.1 = k) && decide (p.2 = v)))) k1 =
        valsAt (qs.filter (fun p => true)) k1 := by
      apply valsAt_filter_congr
      intro p hp
      simp [hp]
      exact Or.inl h1
    rw [hall, List.filter_true]

theorem filtersOfQS_remove_filter (qs : QS) (k v : String)
    (hnb : ∀ p ∈ qs, p.2 ≠ "") :
    filtersOfQS (remove_filter qs k v) =
      filtersOfQS (qs.filter (fun p => !(decide (p.1 = k) && decide (p.2 = v)))) := by
  simp only [filtersOfQS, valsAt_remove_filter qs k v hnb]

theorem mem_stage {q : List Report} {b : Bool} {p : Report → Bool} {r : Report} :
    (r ∈ if b = true then q else q.filter p) ↔
      r ∈ q ∧ (b = false → p r = true) := by
  cases b <;> simp [List.mem_filter]

theorem mem_applyFilters {f : Filters} {db : List Report} {r : Report} :
    r ∈ applyFilters f db ↔
      r ∈ db ∧
      (f.state ≠ [] → optMemS r.stateName f.state = true) ∧
      (f.rusa_phase ≠ [] → optMemS r.phaseName f.rusa_phase = true) ∧
      (f.component_name ≠ [] → optMemS r.componentName f.component_name = true) ∧
      (f.institution_name ≠ [] → optMemS r.institution_name f.institution_name = true) ∧
      (f.district ≠ [] → optMemS r.district f.district = true) ∧
      (f.project_status ≠ [] → optMemS r.project_status f.project_status = true) ∧
      (f.year ≠ [] → optMemI r.year f.year = true) ∧
      (f.months ≠ [] → optMemS r.months f.months = true) := by
  rw [applyFilters]
  simp only [mem_stage, List.isEmpty_eq_false]
  tauto

/-- Claim C7 (amended): filters compose as OR within a field and AND across
fields — a row is returned exactly when, for every field with at least one
selected value, the row's (non-null) value is among the selected values —
and, PROVIDED every parameter value in the query string is non-empty,
applying `remove_filter` for one selected value yields a query string whose
filter semantics are identical to the original query string with that value
never selected.  (With a blank value the two sides differ, because
`parse_qs` silently drops blank-valued parameters while `getlist` keeps
them; see the counterexample.) -/
theorem claim_C7_filter_semantics (db : List Report) (f : Filters) (r : Report)
    (qs : QS) (k v : String) (hnb : ∀ p ∈ qs, p.2 ≠ "") :
    (r ∈ applyFilters f db ↔
      r ∈ db ∧
      (f.state ≠ [] → optMemS r.stateName f.state = true) ∧
      (f.rusa_phase ≠ [] → optMemS r.phaseName f.rusa_phase = true) ∧
      (f.component_name ≠ [] → optMemS r.componentName f.component_name = true) ∧
      (f.institution_name ≠ [] → optMemS r.institution_name f.institution_name = true) ∧
      (f.district ≠ [] → optMemS r.district f.district = true) ∧
      (f.project_status ≠ [] → optMemS r.project_status f.project_status = true) ∧
      (f.year ≠ [] → optMemI r.year f.year = true) ∧
      (f.months ≠ [] → optMemS r.months f.months = true)) ∧
    filtersOfQS (remove_filter qs k v) =
      filtersOfQS (qs.filter (fun p => !(decide (p.1 = k) && decide (p.2 = v)))) :=
  ⟨mem_applyFilters, filtersOfQS_remove_filter qs k v hnb⟩

/-- Claim C7, counterexample to the claim as stated: on the query string
`state=&state=Kerala`, removing the selected value "Kerala" via
`remove_filter` yields the empty query string (no state filter at all),
while the original query string with "Kerala" never selected is `state=`,
whose getlist-semantics filter on the empty-string state matches nothing:
the two filtered row sets differ. -/
theorem claim_C7_counterexample :
    remove_filter qsBlank "state" "Kerala" = [] ∧
    qsBlank.filter
        (fun p => !(decide (p.1 = "state") && decide (p.2 = "Kerala"))) =
      [("state", "")] ∧
    applyFiltersQS (remove_filter qsBlank "state" "Kerala") dbA ≠
      applyFiltersQS (qsBlank.filter
        (fun p => !(decide (p.1 = "state") && decide (p.2 = "Kerala")))) dbA := by
  decide

/-- Claim C7, witness: the filter-composition characterization at `rJun` for
the `state=["Kerala"]` selection, and the remove_filter equivalence on the
blank-free query string `state=Kerala&state=Goa&months=June`. -/
theorem claim_C7_witness :
    (rJun ∈ applyFilters fKerala dbA ↔
      rJun ∈ dbA ∧
      (fKerala.state ≠ [] → optMemS rJun.stateName fKerala.state = true) ∧
      (fKerala.rusa_phase ≠ [] → optMemS rJun.phaseName fKerala.rusa_phase = true) ∧
      (fKerala.component_name ≠ [] → optMemS rJun.componentName fKerala.component_name = true) ∧
      (fKerala.institution_name ≠ [] → optMemS rJun.institution_name fKerala.institution_name = true) ∧
      (fKerala.district ≠ [] → optMemS rJun.district fKerala.district = true) ∧
      (fKerala.project_status ≠ [] → optMemS rJun.project_status fKerala.project_status = true) ∧
      (fKerala.year ≠ [] → optMemI rJun.year fKerala.year = true) ∧
      (fKerala.months ≠ [] → optMemS rJun.months fKerala.months = true)) ∧
    filtersOfQS (remove_filter qsTwo "state" "Goa") =
      filtersOfQS (qsTwo.filter
        (fun p => !(decide (p.1 = "state") && decide (p.2 = "Goa")))) :=
  claim_C7_filter_semantics dbA fKerala rJun qsTwo "state" "Goa" (by decide)

end Mpr
